import Mathlib

/-!
# Verification of the expense-migration tool

A shallow embedding of the Coda expense-migration program (migration-service,
table-service, file-service, storage-service) together with proofs about its
behaviour.  Runtime JavaScript values are modelled by the inductive `Value`;
effectful calls (HTTP requests, file-system operations) are modelled by
explicit response/oracle parameters and, for the file service, by an explicit
file-system state (a list of paths).
-/

namespace ExpenseMigration

/-! ## JavaScript runtime values

A tagged variant covering the value shapes the program inspects at runtime:
`null`/`undefined` (collapsed to `vNull`: the code treats them identically at
every inspection point), booleans, numbers (`Rat`; `NaN` is not modelled),
strings, arrays, plain objects carrying the properties the code reads
(`@type`, `amount`, `name`, `url`, `displayText`, `email`, `text`; an absent
property is `vNull`, which is falsy and fails every `typeof`/`===` test just
as `undefined` does), and `Date` instances.
-/

inductive Value where
  | vNull
  | vBool (b : Bool)
  | vNum (x : Rat)
  | vStr (s : String)
  | vArr (items : List Value)
  | vObj (atType : Option String) (amount name url displayText email text : Value)
  | vDate (iso : String)

/-- JavaScript truthiness of a modelled value. -/
def truthy : Value → Bool
  | .vNull => false
  | .vBool b => b
  | .vNum x => decide (x ≠ 0)
  | .vStr s => decide (s ≠ "")
  | .vArr _ => true
  | .vObj _ _ _ _ _ _ _ => true
  | .vDate _ => true

/-- `typeof v === 'number'`. -/
def isNumberV : Value → Bool
  | .vNum _ => true
  | _ => false

/-- `v === null || v === undefined`. -/
def isNullV : Value → Bool
  | .vNull => true
  | _ => false

/-- Decimal rendering of a JavaScript number.  Exact for integers (the only
numbers the program ever stringifies in the verified scenarios). -/
def jsNumToString (x : Rat) : String :=
  if x.den = 1 then toString x.num else toString x

/-- `String(v)` for the value shapes that reach a string coercion in the code.
A plain object stringifies to `"[object Object]"`; array elements are joined
with commas, `null`/`undefined` elements rendering as the empty string. -/
def jsString : Value → String
  | .vNull => "null"
  | .vBool true => "true"
  | .vBool false => "false"
  | .vNum x => jsNumToString x
  | .vStr s => s
  | .vArr items => String.intercalate "," (jsStringElems items)
  | .vObj _ _ _ _ _ _ _ => "[object Object]"
  | .vDate iso => iso
where
  jsStringElems : List Value → List String
    | [] => []
    | .vNull :: rest => "" :: jsStringElems rest
    | v :: rest => jsString v :: jsStringElems rest

/-- `a || b` on modelled values: `a` when truthy, else `b`. -/
def jsOr (a b : Value) : Value :=
  if truthy a then a else b

/-! ## String cleaning (`MigrationService.cleanBackticks`)

`value.replace(/^```|```$/g, '').trim()`: one leading and (non-overlapping)
one trailing triple-backtick run are removed, then the result is trimmed.
Implemented over `String.data` so that concrete inputs evaluate inside the
kernel. -/

/-- The three backtick characters (code point 96). -/
def backtick3 : List Char := [Char.ofNat 96, Char.ofNat 96, Char.ofNat 96]

/-- Does `pat` lead `l`? -/
def leadsWith : List Char → List Char → Bool
  | [], _ => true
  | _ :: _, [] => false
  | a :: as, b :: bs => a == b && leadsWith as bs

/-- Trim whitespace from both ends of a character list (JS `String.trim`). -/
def trimChars (l : List Char) : List Char :=
  ((l.dropWhile Char.isWhitespace).reverse.dropWhile Char.isWhitespace).reverse

def cleanBackticks (s : String) : String :=
  let l := s.data
  let l1 := if leadsWith backtick3 l then l.drop 3 else l
  let l2 := if leadsWith backtick3 l1.reverse then (l1.reverse.drop 3).reverse else l1
  String.mk (trimChars l2)

/-! ## Value sanitization (`MigrationService.sanitizeValue`)

Converts an arbitrary source value into one acceptable to the Coda API,
mirroring the runtime shape inspection of the source: primitives pass
through, strings are cleaned, arrays are sanitized element-wise with
`null`/`undefined` results dropped, and objects are reduced according to
their `@type` tag with raw-field fallbacks. -/

mutual

def sanitizeValue : Value → Value
  | .vNull => .vNull
  | .vBool b => .vBool b
  | .vNum x => .vNum x
  | .vStr s => .vStr (cleanBackticks s)
  | .vArr items => .vArr ((sanitizeList items).filter (fun v => !isNullV v))
  | .vObj atType amount name url displayText email text =>
    if atType = some "MonetaryAmount" then
      if isNumberV amount then amount else .vNum 0
    else if atType = some "StructuredValue" then
      jsOr name (jsOr url (jsOr displayText (.vStr "[object Object]")))
    else if atType = some "Person" then
      jsOr email (jsOr name (.vStr "[object Object]"))
    else if atType = some "ImageObject" then
      jsOr url (jsOr name (.vStr "[object Object]"))
    else if truthy name then .vStr (jsString name)
    else if truthy url then .vStr (jsString url)
    else if truthy displayText then .vStr (jsString displayText)
    else if truthy text then .vStr (jsString text)
    else .vStr "[object Object]"
  | .vDate iso => .vStr iso

def sanitizeList : List Value → List Value
  | [] => []
  | v :: rest => sanitizeValue v :: sanitizeList rest

end

/-! ## Schema mapping (`TableService.createColumnMapping`, `createTransform`) -/

structure CodaColumn where
  id : String
  name : String
  formatType : String
  calculated : Bool
deriving DecidableEq, Repr

structure ColumnMapping where
  sourceColumn : CodaColumn
  destinationColumn : CodaColumn
  transform : Option (Value → Value)

/-- A configured transformation directive (`transformations` entry in the
YAML configuration, with `from`/`to` fields). -/
structure TransformDirective where
  fromType : String
  toType : String
deriving DecidableEq, Repr

/-- The parts of `MigrationConfig` the verified components read. -/
structure MigConfig where
  sourceDocId : String
  sourceTableId : String
  destinationDocId : String
  destinationTableId : String
  insertBatchSize : Nat
  columnMappings : List (String × String)
  skipColumns : List String
  transformations : List (String × TransformDirective)

/-- `TableService.createTransform`.  A configured directive yields the
closure of the source, which returns its argument on every path; otherwise a
type mismatch yields the automatic coercion (text destinations stringify
non-null values, all other cases pass through); otherwise no transform. -/
def createTransform (sourceCol destCol : CodaColumn) (cfg : MigConfig) :
    Option (Value → Value) :=
  match cfg.transformations.lookup sourceCol.name with
  | some _ => some (fun v => v)
  | none =>
    if sourceCol.formatType ≠ destCol.formatType then
      some (fun v =>
        if destCol.formatType = "text" ∧ isNullV v = false then .vStr (jsString v)
        else v)
    else none

/-- One iteration of the `createColumnMapping` loop: the emitted mapping for
a single source column, or `none` when the column is dropped (`continue`). -/
def mapOneColumn (destColumns : List CodaColumn) (cfg : MigConfig)
    (sourceCol : CodaColumn) : Option ColumnMapping :=
  if sourceCol.calculated then none
  else if cfg.skipColumns.contains sourceCol.name then none
  else
    match cfg.columnMappings.lookup sourceCol.name with
    | none => none
    | some destColumnName =>
      if destColumnName = "" then none
      else
        match destColumns.find? (fun dc => dc.name == destColumnName && !dc.calculated) with
        | none => none
        | some destCol => some ⟨sourceCol, destCol, createTransform sourceCol destCol cfg⟩

/-- `TableService.createColumnMapping` after both column lists have been
fetched: the per-column loop, dropping columns rather than failing. -/
def createColumnMapping (sourceColumns destColumns : List CodaColumn)
    (cfg : MigConfig) : List ColumnMapping :=
  sourceColumns.filterMap (mapOneColumn destColumns cfg)

/-! ## Rows, prepared rows and results -/

structure Row where
  id : String
  name : String
  values : List (String × Value)

structure ProcessedFile where
  originalName : String
  pdfPath : String
  uploadedUrl : String
deriving DecidableEq, Repr

structure PreparedRow where
  sourceRowId : String
  destinationData : List (String × Value)
  processedFiles : List ProcessedFile

structure MigrationResult where
  success : Bool
  sourceRowId : String
  destinationRowId : Option String
  processedFiles : List ProcessedFile
  error : Option String
deriving DecidableEq, Repr

/-- Property read on a JS record: `obj[key]`, absent keys giving `undefined`. -/
def recordGet (r : List (String × Value)) (key : String) : Value :=
  (r.lookup key).getD .vNull

/-- Property write on a JS record: `obj[key] = v` updates an existing key in
place and appends a new one. -/
def recordSet (r : List (String × Value)) (key : String) (v : Value) :
    List (String × Value) :=
  if r.any (fun p => p.1 == key) then
    r.map (fun p => if p.1 == key then (key, v) else p)
  else r ++ [(key, v)]

/-! ## Row data mapping (`MigrationService.mapRowData`) -/

/-- Is this the special attachment mapping (`'Record file'` → `'Receipt'`)? -/
def isReceiptMapping (m : ColumnMapping) : Bool :=
  m.sourceColumn.name == "Record file" && m.destinationColumn.name == "Receipt"

/-- Apply the mapping's transform exactly as the source guards it:
only when one is configured and the source value is neither `null` nor
`undefined`. -/
def applyTransform (m : ColumnMapping) (v : Value) : Value :=
  match m.transform with
  | some f => if isNullV v then v else f v
  | none => v

def mapRowDataAux (sourceRow : Row) (processedFiles : List ProcessedFile) :
    List ColumnMapping → List (String × Value) → List (String × Value)
  | [], acc => acc
  | m :: rest, acc =>
    if isReceiptMapping m then
      match processedFiles with
      | [] => mapRowDataAux sourceRow processedFiles rest acc
      | pf :: _ =>
        mapRowDataAux sourceRow processedFiles rest
          (recordSet acc m.destinationColumn.id (.vStr pf.uploadedUrl))
    else
      if isNullV (sanitizeValue (applyTransform m
          (recordGet sourceRow.values m.sourceColumn.id))) then
        mapRowDataAux sourceRow processedFiles rest acc
      else
        mapRowDataAux sourceRow processedFiles rest
          (recordSet acc m.destinationColumn.id
            (sanitizeValue (applyTransform m
              (recordGet sourceRow.values m.sourceColumn.id))))

/-- `MigrationService.mapRowData`: build the destination payload for one row. -/
def mapRowData (sourceRow : Row) (columnMappings : List ColumnMapping)
    (processedFiles : List ProcessedFile) : List (String × Value) :=
  mapRowDataAux sourceRow processedFiles columnMappings []

/-! ## Attachment extraction and row preparation (`MigrationService`) -/

/-- The `name` property of a value (objects only; `undefined` otherwise). -/
def fieldName : Value → Value
  | .vObj _ _ n _ _ _ _ => n
  | _ => .vNull

/-- The `url` property of a value (objects only; `undefined` otherwise). -/
def fieldUrl : Value → Value
  | .vObj _ _ _ u _ _ _ => u
  | _ => .vNull

/-- The filter of `extractAttachmentsFromColumn`:
`item && typeof item === 'object' && item.url && item.name`.  Arrays and
dates are `typeof 'object'` but have no `url`/`name` properties. -/
def isAttachmentLike (v : Value) : Bool :=
  match v with
  | .vObj _ _ _ _ _ _ _ => truthy (fieldUrl v) && truthy (fieldName v)
  | _ => false

/-- `MigrationService.extractAttachmentsFromColumn`. -/
def extractAttachmentsFromColumn (row : Row) (columnId : String) : List Value :=
  match recordGet row.values columnId with
  | .vArr items => items.filter isAttachmentLike
  | _ => []

/-- `replace(/[^a-zA-Z0-9_-]/g, '_')`. -/
def sanitizeChars (l : List Char) : List Char :=
  l.map (fun c => if c.isAlphanum || c == Char.ofNat 95 || c == Char.ofNat 45 then c else Char.ofNat 95)

/-- The characters before the last dot, or `[]` when there is no dot
(`fileName.substring(0, fileName.lastIndexOf('.'))`). -/
def beforeLastDot (l : List Char) : List Char :=
  match l.reverse.dropWhile (fun c => !(c == Char.ofNat 46)) with
  | [] => []
  | _ :: rest => rest.reverse

/-- `MigrationService.getBaseFileName`.  Reading `.lastIndexOf` off a
non-string truthy attachment name raises a `TypeError`, modelled as an
error result. -/
def getBaseFileName (row : Row) (attachments : List Value) : Except String String :=
  match attachments with
  | a :: _ =>
    if truthy (fieldName a) then
      match fieldName a with
      | .vStr s =>
        let fileName := s.data
        let baseName := if (beforeLastDot fileName).isEmpty then fileName else beforeLastDot fileName
        .ok (String.mk (sanitizeChars baseName))
      | _ => .error "fileName.lastIndexOf is not a function"
    else getBaseFileNameFallback row
  | [] => getBaseFileNameFallback row
where
  getBaseFileNameFallback (row : Row) : Except String String :=
    if row.name ≠ "" then .ok (String.mk (sanitizeChars row.name.data))
    else .ok ("row_" ++ String.mk (sanitizeChars row.id.data))

/-- `MigrationService.processRowAttachments`, parameterized by the file
pipeline (`FileService.processAttachments`) and the storage upload
(`StorageService.uploadFile`), both fallible external effects. -/
def processRowAttachments
    (processAtt : List Value → String → Except String (Option ProcessedFile))
    (upload : String → String → Except String String)
    (row : Row) (attachments : List Value) : Except String (Option ProcessedFile) :=
  match getBaseFileName row attachments with
  | .error e => .error e
  | .ok baseFileName =>
    match processAtt attachments baseFileName with
    | .error e => .error e
    | .ok none => .ok none
    | .ok (some pf) =>
      match upload pf.pdfPath (pf.originalName ++ ".pdf") with
      | .error e => .error e
      | .ok uploadedUrl => .ok (some { pf with uploadedUrl := uploadedUrl })

/-- `MigrationService.prepareRow`: resolve the special attachment mapping,
process attachments when present, and build the `PreparedRow`. -/
def prepareRow
    (processAtt : List Value → String → Except String (Option ProcessedFile))
    (upload : String → String → Except String String)
    (columnMappings : List ColumnMapping) (sourceRow : Row) :
    Except String PreparedRow :=
  match columnMappings.find? isReceiptMapping with
  | some attachmentColumnMapping =>
    let attachments :=
      extractAttachmentsFromColumn sourceRow attachmentColumnMapping.sourceColumn.id
    if attachments.isEmpty then
      .ok ⟨sourceRow.id, mapRowData sourceRow columnMappings [], []⟩
    else
      match processRowAttachments processAtt upload sourceRow attachments with
      | .error e => .error e
      | .ok pfOpt =>
        let processedFiles := match pfOpt with | some pf => [pf] | none => []
        .ok ⟨sourceRow.id, mapRowData sourceRow columnMappings processedFiles, processedFiles⟩
  | none => .ok ⟨sourceRow.id, mapRowData sourceRow columnMappings [], []⟩

/-! ## Batch insertion (`MigrationService.insertRowsBatch`) -/

/-- One per-payload entry of the batch-insert return value. -/
structure InsertResult where
  success : Bool
  destinationRowId : Option String
  error : Option String
deriving DecidableEq, Repr

/-- The observable outcome of the single POST issued by `insertRowsBatch`:
a non-OK HTTP response, a successful response whose body may or may not
carry `addedRowIds`, or an exception from `fetch`/`json`. -/
inductive InsertResponse where
  | httpError (msg : String)
  | ok (addedRowIds : Option (List String))
  | netError (msg : String)

def noIdsError : String := "No row IDs returned from batch insert operation"

/-- `MigrationService.insertRowsBatch` as a function of the response. -/
def insertRowsBatch (rowDataArray : List (List (String × Value)))
    (resp : InsertResponse) : List InsertResult :=
  if rowDataArray.isEmpty then []
  else
    match resp with
    | .httpError msg =>
      rowDataArray.map (fun _ => ⟨false, none, some ("Failed to insert batch: " ++ msg)⟩)
    | .netError msg => rowDataArray.map (fun _ => ⟨false, none, some msg⟩)
    | .ok none => rowDataArray.map (fun _ => ⟨false, none, some noIdsError⟩)
    | .ok (some ids) =>
      if ids.isEmpty then rowDataArray.map (fun _ => ⟨false, none, some noIdsError⟩)
      else ids.map (fun rowId => ⟨true, some rowId, none⟩)

/-! ## The migration pipeline (`MigrationService.migrate`) -/

/-- Result built for one prepared row from its batch entry. -/
def batchRowResult (preparedRow : PreparedRow) (batchResult : InsertResult) :
    MigrationResult :=
  if batchResult.success then
    ⟨true, preparedRow.sourceRowId, batchResult.destinationRowId,
      preparedRow.processedFiles, none⟩
  else
    ⟨false, preparedRow.sourceRowId, none, preparedRow.processedFiles,
      batchResult.error⟩

/-- The message of the `TypeError` raised when the correlation loop indexes
past the end of a short `batchResults` array. -/
def undefinedReadError : String :=
  "Cannot read properties of undefined (reading 'success')"

/-- The per-batch block of Phase 2: correlate `batchResults[i]` back to the
batch positionally.  When the response carried fewer entries than the batch,
the loop reads `undefined` and throws after having already recorded the
covered positions; the surrounding catch then records a failure for every
row of the batch. -/
def processBatch (batch : List PreparedRow) (resp : InsertResponse) :
    List MigrationResult :=
  let batchResults := insertRowsBatch (batch.map (fun r => r.destinationData)) resp
  if batch.length ≤ batchResults.length then
    (batch.zip batchResults).map (fun p => batchRowResult p.1 p.2)
  else
    (batch.zip batchResults).map (fun p => batchRowResult p.1 p.2)
      ++ batch.map (fun pr =>
          ⟨false, pr.sourceRowId, none, pr.processedFiles, some undefinedReadError⟩)

/-- Phase 1 of `migrate`/`recover`: prepare each row independently, a failure
producing one failed result and not blocking later rows. -/
def migratePhase1 (prep : Row → Except String PreparedRow) :
    List Row → List PreparedRow × List MigrationResult
  | [] => ([], [])
  | row :: rest =>
    let done := migratePhase1 prep rest
    match prep row with
    | .ok preparedRow => (preparedRow :: done.1, done.2)
    | .error e => (done.1, ⟨false, row.id, none, [], some e⟩ :: done.2)

/-- Fuel-driven chunking; `chunkList` instantiates the fuel so that the
definition is structurally recursive and evaluates in the kernel. -/
def chunkListAux (n : Nat) : Nat → List α → List (List α)
  | 0, _ => []
  | _, [] => []
  | Nat.succ fuel, x :: xs => (x :: xs).take n :: chunkListAux n fuel ((x :: xs).drop n)

/-- `for (i = 0; i < l.length; i += n) chunks.push(l.slice(i, i + n))`. -/
def chunkList (n : Nat) (l : List α) : List (List α) :=
  chunkListAux n l.length l

/-- The Phase-2 batch loop: one insert call per batch, indexed responses. -/
def runBatches (respond : Nat → InsertResponse) :
    Nat → List (List PreparedRow) → List MigrationResult
  | _, [] => []
  | i, batch :: rest => processBatch batch (respond i) ++ runBatches respond (i + 1) rest

/-- The batches Phase 2 submits for a given preparation oracle and row set. -/
def migrateBatches (prep : Row → Except String PreparedRow)
    (insertBatchSize : Nat) (sourceRows : List Row) : List (List PreparedRow) :=
  chunkList insertBatchSize (migratePhase1 prep sourceRows).1

/-- `MigrationService.migrate`, from the point where the source rows have
been fetched and a non-empty column mapping resolved: Phase 1 preparation
followed by Phase 2 chunked insertion, accumulating all results. -/
def migrateResults (prep : Row → Except String PreparedRow)
    (respond : Nat → InsertResponse) (insertBatchSize : Nat)
    (sourceRows : List Row) : List MigrationResult :=
  if sourceRows.isEmpty then []
  else
    (migratePhase1 prep sourceRows).2
      ++ runBatches respond 0 (chunkList insertBatchSize (migratePhase1 prep sourceRows).1)

/-! ## Targeted row retrieval (`TableService.getSpecificRows`) -/

/-- The outcome of one id-chunk request: a non-OK HTTP response, an OK
response whose body may lack an `items` array, or a thrown exception. -/
inductive ChunkResponse where
  | httpError (status : Nat) (msg : String)
  | ok (items : Option (List Row))
  | exn (msg : String)

/-- The rows one chunk contributes: the response items filtered down to the
requested ids, or nothing when the chunk request failed. -/
def chunkFetch (batchIds : List String) (resp : ChunkResponse) : List Row :=
  match resp with
  | .ok (some items) => items.filter (fun item => batchIds.contains item.id)
  | _ => []

/-- `TableService.getSpecificRows`: fixed-size id chunks of 20, each chunk
requested independently, failures skipped. -/
def getSpecificRows (rowIds : List String)
    (respond : List String → ChunkResponse) : List Row :=
  (chunkList 20 rowIds).flatMap (fun batchIds => chunkFetch batchIds (respond batchIds))

/-! ## File service (`FileService`) over an explicit file-system state

The file system is a list of paths; scratch files live under `temp/`, staged
files under `upload/`.  The fallible operations of the pipeline (download,
per-file conversion, merge, and the copy into the staging area) are driven
by a `FileWorld` oracle. -/

/-- An attachment as the file service reads it (`url` for the download,
`name` for the local file name; `""` models a falsy name). -/
structure Attachment where
  url : String
  name : String
deriving DecidableEq, Repr

abbrev FS := List String

def addFile (fs : FS) (p : String) : FS :=
  if fs.contains p then fs else fs ++ [p]

/-- `FileService.cleanup`: unlink each listed path that exists; never throws. -/
def removeFiles (fs : FS) (paths : List String) : FS :=
  fs.filter (fun q => !(paths.contains q))

/-- Oracle deciding which fallible file operations succeed. -/
structure FileWorld where
  downloadOk : String → Bool
  imageConvOk : String → Bool
  placeholderOk : String → Bool
  mergeOk : Bool
  stageCopyOk : Bool

/-- The part of the path after the last slash. -/
def afterLastSlash (l : List Char) : List Char :=
  (l.reverse.takeWhile (fun c => !(c == '/'))).reverse

/-- `path.extname(p).toLowerCase()`: the lowercased extension of the base
name, including the dot; empty for extension-less names and dotfiles. -/
def extnameOf (p : String) : String :=
  let b := afterLastSlash p.data
  let tail := b.reverse.takeWhile (fun c => !(c == '.'))
  if tail.length + 1 < b.length then String.mk ('.' :: (tail.reverse.map Char.toLower))
  else ""

/-- `path.basename(p, ext)`: the base name with the suffix `ext` removed when
it matches exactly. -/
def basenameMinusExt (p ext : String) : String :=
  let b := afterLastSlash p.data
  if ext ≠ "" ∧ leadsWith ext.data.reverse b.reverse then
    String.mk (b.take (b.length - ext.length))
  else String.mk b

def imageExtensions : List String := [".jpg", ".jpeg", ".png", ".gif", ".bmp", ".webp"]

/-- `FileService.downloadFile`: fetch `url` into `temp/fileName`. -/
def downloadFile (w : FileWorld) (fs : FS) (url fileName : String) :
    Except String (String × FS) :=
  if w.downloadOk url then
    let filepath := "temp/" ++ fileName
    .ok (filepath, addFile fs filepath)
  else .error "Failed to download file"

/-- `FileService.convertToPdf`: pass PDFs through (copying when the target
path differs), re-encode images, and build a placeholder document for any
other type. -/
def convertToPdf (w : FileWorld) (fs : FS) (filePath : String) :
    Except String (String × FS) :=
  let ext := extnameOf filePath
  let outputPath := "temp/" ++ basenameMinusExt filePath ext ++ ".pdf"
  if ext = ".pdf" then
    if filePath = outputPath then .ok (outputPath, fs)
    else .ok (outputPath, addFile fs outputPath)
  else if imageExtensions.contains ext then
    if w.imageConvOk filePath then .ok (outputPath, addFile fs outputPath)
    else .error "Error converting image to PDF"
  else
    if w.placeholderOk filePath then .ok (outputPath, addFile fs outputPath)
    else .error "Error creating placeholder PDF"

/-- `FileService.mergePdfs`: copy a single document or concatenate several. -/
def mergePdfs (w : FileWorld) (fs : FS) (pdfPaths : List String)
    (outputPath : String) : Except String (String × FS) :=
  if pdfPaths.isEmpty then .error "No PDF files to merge"
  else if pdfPaths.length = 1 then .ok (outputPath, addFile fs outputPath)
  else if w.mergeOk then .ok (outputPath, addFile fs outputPath)
  else .error "Error merging PDFs"

/-- The download loop of step 1.  On failure the error carries the paths
accumulated so far, for the caller's catch-block cleanup. -/
def downloadAll (w : FileWorld) :
    List Attachment → Nat → FS → List String →
    Except (String × List String × FS) (List String × FS)
  | [], _, fs, acc => .ok (acc, fs)
  | a :: rest, i, fs, acc =>
    let fileName := if a.name ≠ "" then a.name else "attachment_" ++ toString (i + 1)
    match downloadFile w fs a.url fileName with
    | .error e => .error (e, acc, fs)
    | .ok (p, fs1) => downloadAll w rest (i + 1) fs1 (acc ++ [p])

/-- The conversion loop of step 2, accumulating converted paths. -/
def convertAll (w : FileWorld) :
    List String → FS → List String →
    Except (String × List String × FS) (List String × FS)
  | [], fs, acc => .ok (acc, fs)
  | p :: rest, fs, acc =>
    match convertToPdf w fs p with
    | .error e => .error (e, acc, fs)
    | .ok (q, fs1) => convertAll w rest fs1 (acc ++ [q])

/-- Steps 4-5: copy the combined document into the staging area, then clean
all intermediate files; on a copy failure the catch block cleans only the
downloaded and converted files. -/
def stageAndCleanup (w : FileWorld) (fs : FS)
    (downloadedFiles convertedPdfs : List String)
    (tempFinalPdfPath baseFileName : String) :
    Except (String × FS) (Option ProcessedFile × FS) :=
  let uploadPdfPath := "upload/" ++ baseFileName ++ ".pdf"
  if w.stageCopyOk then
    let fs1 := addFile fs uploadPdfPath
    let filesToCleanup := downloadedFiles ++ convertedPdfs
      ++ (if convertedPdfs.contains tempFinalPdfPath then [] else [tempFinalPdfPath])
    .ok (some ⟨baseFileName, uploadPdfPath, ""⟩, removeFiles fs1 filesToCleanup)
  else
    .error ("EACCES: staging copy failed", removeFiles fs (downloadedFiles ++ convertedPdfs))

/-- `FileService.processAttachments`: download every attachment, convert each
to a document, combine, stage, and clean up; any failure is propagated after
the catch block removes the downloaded and converted files. -/
def processAttachmentsFS (w : FileWorld) (fs : FS) (attachments : List Attachment)
    (baseFileName : String) : Except (String × FS) (Option ProcessedFile × FS) :=
  if attachments.isEmpty then .ok (none, fs)
  else
    match downloadAll w attachments 0 fs [] with
    | .error (e, downloaded, fs1) => .error (e, removeFiles fs1 downloaded)
    | .ok (downloadedFiles, fs1) =>
      match convertAll w downloadedFiles fs1 [] with
      | .error (e, converted, fs2) =>
        .error (e, removeFiles fs2 (downloadedFiles ++ converted))
      | .ok (convertedPdfs, fs2) =>
        let tempFinalPdfPath := "temp/" ++ baseFileName ++ ".pdf"
        match convertedPdfs with
        | [singlePdf] =>
          let fs3 := if singlePdf = tempFinalPdfPath then fs2 else addFile fs2 tempFinalPdfPath
          stageAndCleanup w fs3 downloadedFiles convertedPdfs tempFinalPdfPath baseFileName
        | _ =>
          match mergePdfs w fs2 convertedPdfs tempFinalPdfPath with
          | .error e => .error (e, removeFiles fs2 (downloadedFiles ++ convertedPdfs))
          | .ok (_, fs3) =>
            stageAndCleanup w fs3 downloadedFiles convertedPdfs tempFinalPdfPath baseFileName

/-! ## Recovery (`MigrationService.recover`) with a network-call trace -/

/-- The ledger file content (`failed-rows.json`); `failedRowIds` may be
absent, defaulted by `|| []`. -/
structure LedgerData where
  failedRowIds : Option (List String)

/-- A network round-trip issued during recovery. -/
inductive NetCall where
  | getTable (docId tableId : String)
  | getColumns (docId tableId : String)
  | getRowsChunk (ids : List String)
  | insertRows (count : Nat)
  | storagePut
  | rowPrepCall (tag : String)
deriving DecidableEq, Repr

/-- External responses consumed by a recovery run; `prep` also reports the
network calls the per-row preparation issued. -/
structure RecoverWorld where
  srcTableOk : Bool
  dstTableOk : Bool
  storageOk : Bool
  srcColumns : Except String (List CodaColumn)
  dstColumns : Except String (List CodaColumn)
  chunkResp : List String → ChunkResponse
  prep : Row → Except String PreparedRow × List NetCall
  insertResp : Nat → InsertResponse

/-- `MigrationService.recover`: a missing ledger is fatal; an empty id list
returns immediately; otherwise connections are tested, the mapping resolved,
only the ledger ids fetched, and the shared prepare/insert phases run.  The
second component lists every network call performed. -/
def recoverRun (cfg : MigConfig) (w : RecoverWorld) (ledger : Option LedgerData) :
    Except String (List MigrationResult) × List NetCall :=
  match ledger with
  | none => (.error "Failed rows file not found", [])
  | some ledgerData =>
    let failedRowIds := ledgerData.failedRowIds.getD []
    if failedRowIds.isEmpty then (.ok [], [])
    else
      let calls1 := [NetCall.getTable cfg.sourceDocId cfg.sourceTableId]
      if !w.srcTableOk then (.error "Coda API access failed", calls1)
      else
        let calls2 := calls1 ++ [NetCall.getTable cfg.destinationDocId cfg.destinationTableId]
        if !w.dstTableOk then (.error "Coda API access failed", calls2)
        else
          let calls3 := calls2 ++ [NetCall.storagePut]
          if !w.storageOk then (.error "DigitalOcean Spaces connection failed", calls3)
          else
            let calls4 := calls3
              ++ [NetCall.getColumns cfg.sourceDocId cfg.sourceTableId,
                  NetCall.getColumns cfg.destinationDocId cfg.destinationTableId]
            match w.srcColumns, w.dstColumns with
            | .error e, _ => (.error e, calls4)
            | .ok _, .error e => (.error e, calls4)
            | .ok sourceColumns, .ok destColumns =>
              let columnMappings := createColumnMapping sourceColumns destColumns cfg
              if columnMappings.isEmpty then
                (.error "No column mappings found. Check your configuration.", calls4)
              else
                let chunks := chunkList 20 failedRowIds
                let calls5 := calls4 ++ chunks.map (fun b => NetCall.getRowsChunk b)
                let sourceRows := getSpecificRows failedRowIds w.chunkResp
                if sourceRows.isEmpty then (.ok [], calls5)
                else
                  let prepCalls := sourceRows.flatMap (fun r => (w.prep r).2)
                  let phase1 := migratePhase1 (fun r => (w.prep r).1) sourceRows
                  let batches := chunkList cfg.insertBatchSize phase1.1
                  let calls6 := calls5 ++ prepCalls
                    ++ batches.map (fun b => NetCall.insertRows b.length)
                  (.ok (phase1.2 ++ runBatches w.insertResp 0 batches), calls6)

/-! ## Helper lemmas -/

theorem isNullV_false_ne {v : Value} (h : isNullV v = false) : v ≠ .vNull := by
  cases v <;> simp_all [isNullV]

theorem mem_recordSet {acc : List (String × Value)} {key : String} {v : Value}
    {q : String × Value} (hq : q ∈ recordSet acc key v) :
    q = (key, v) ∨ q ∈ acc := by
  unfold recordSet at hq
  split at hq
  · rcases List.mem_map.mp hq with ⟨q0, hq0, he⟩
    by_cases h1 : (q0.1 == key) = true
    · left; rw [if_pos h1] at he; exact he.symm
    · right; rw [if_neg h1] at he; exact he ▸ hq0
  · rcases List.mem_append.mp hq with h | h
    · right; exact h
    · left; exact List.mem_singleton.mp h

theorem countP_add_countP_not (p : α → Bool) (l : List α) :
    l.countP p + l.countP (fun a => !p a) = l.length := by
  induction l with
  | nil => simp
  | cons x xs ih =>
    simp only [List.countP_cons]
    cases h : p x <;> simp [h] <;> omega

theorem chunkListAux_flatten {n : Nat} (hn : 0 < n) :
    ∀ (fuel : Nat) (l : List α), l.length ≤ fuel → (chunkListAux n fuel l).flatten = l := by
  intro fuel
  induction fuel with
  | zero =>
    intro l hl
    have : l = [] := List.length_eq_zero.mp (Nat.le_zero.mp hl)
    subst this; rfl
  | succ fuel ih =>
    intro l hl
    match l with
    | [] => rfl
    | x :: xs =>
      show ((x :: xs).take n :: chunkListAux n fuel ((x :: xs).drop n)).flatten = x :: xs
      rw [List.flatten_cons, ih ((x :: xs).drop n) ?_, List.take_append_drop]
      have hlen : ((x :: xs).drop n).length = (x :: xs).length - n := List.length_drop n (x :: xs)
      have : (x :: xs).length ≤ fuel + 1 := hl
      omega

theorem chunkList_flatten {n : Nat} (hn : 0 < n) (l : List α) :
    (chunkList n l).flatten = l :=
  chunkListAux_flatten hn l.length l (Nat.le_refl _)

theorem chunkListAux_mem {n : Nat} (hn : 0 < n) :
    ∀ (fuel : Nat) (l : List α) (b : List α), b ∈ chunkListAux n fuel l →
      b ≠ [] ∧ b.length ≤ n := by
  intro fuel
  induction fuel with
  | zero => intro l b hb; simp [chunkListAux] at hb
  | succ fuel ih =>
    intro l b hb
    match l with
    | [] => simp [chunkListAux] at hb
    | x :: xs =>
      rcases List.mem_cons.mp hb with h | h
      · subst h
        constructor
        · have : ((x :: xs).take n).length = min n (x :: xs).length := List.length_take n _
          intro hemp
          rw [hemp] at this
          simp at this
          omega
        · rw [List.length_take]; omega
      · exact ih _ b h

theorem chunkList_mem {n : Nat} (hn : 0 < n) {l : List α} {b : List α}
    (hb : b ∈ chunkList n l) : b ≠ [] ∧ b.length ≤ n :=
  chunkListAux_mem hn l.length l b hb

theorem zip_map_left {l : List α} {r : List β} (f : α → γ) (h : l.length ≤ r.length) :
    (l.zip r).map (fun p => f p.1) = l.map f := by
  induction l generalizing r with
  | nil => simp
  | cons x xs ih =>
    match r with
    | [] => simp at h
    | y :: ys =>
      rw [List.zip_cons_cons, List.map_cons, List.map_cons, ih (by simpa using h)]

theorem batchRowResult_srcId (pr : PreparedRow) (br : InsertResult) :
    (batchRowResult pr br).sourceRowId = pr.sourceRowId := by
  unfold batchRowResult; split <;> rfl

/-- `responseShort resp k`: the response carries a non-empty identifier list
shorter than the `k` submitted payloads (the case whose correlation loop
throws mid-way). -/
def responseShort (resp : InsertResponse) (k : Nat) : Bool :=
  match resp with
  | .ok (some ids) => !ids.isEmpty && decide (ids.length < k)
  | _ => false

theorem insertRowsBatch_length_ge {rows : List (List (String × Value))}
    {resp : InsertResponse} (h : responseShort resp rows.length = false) :
    rows.length ≤ (insertRowsBatch rows resp).length := by
  unfold insertRowsBatch
  match rows with
  | [] => simp
  | r :: rs =>
    simp only [List.isEmpty_cons, Bool.false_eq_true, if_false]
    match resp with
    | .httpError msg => simp
    | .netError msg => simp
    | .ok none => simp
    | .ok (some ids) =>
      by_cases hids : ids.isEmpty
      · simp [hids]
      · simp only [hids, Bool.false_eq_true, if_false, List.length_map]
        unfold responseShort at h
        simp only [hids] at h
        simp at h
        simp only [List.length_cons]
        omega

theorem processBatch_srcIds {batch : List PreparedRow} {resp : InsertResponse}
    (h : responseShort resp batch.length = false) :
    (processBatch batch resp).map (fun r => r.sourceRowId)
      = batch.map (fun r => r.sourceRowId) := by
  unfold processBatch
  have hlen : batch.length ≤
      (insertRowsBatch (batch.map (fun r => r.destinationData)) resp).length := by
    have h2 : responseShort resp (batch.map (fun r => r.destinationData)).length = false := by
      rwa [List.length_map]
    have := insertRowsBatch_length_ge h2
    rwa [List.length_map] at this
  rw [if_pos hlen, List.map_map]
  have : ((fun r => r.sourceRowId) ∘ fun p : PreparedRow × InsertResult =>
      batchRowResult p.1 p.2) = fun p : PreparedRow × InsertResult => p.1.sourceRowId := by
    funext p; exact batchRowResult_srcId p.1 p.2
  rw [this]
  exact zip_map_left _ hlen

theorem runBatches_srcIds (respond : Nat → InsertResponse) :
    ∀ (batches : List (List PreparedRow)) (k : Nat),
      (∀ (i : Nat) (b : List PreparedRow), batches[i]? = some b →
        responseShort (respond (k + i)) b.length = false) →
      (runBatches respond k batches).map (fun r => r.sourceRowId)
        = batches.flatten.map (fun r => r.sourceRowId) := by
  intro batches
  induction batches with
  | nil => intro k _; rfl
  | cons b bs ih =>
    intro k h
    show (processBatch b (respond k) ++ runBatches respond (k + 1) bs).map _ = _
    rw [List.map_append, List.flatten_cons, List.map_append]
    congr 1
    · exact processBatch_srcIds (by simpa using h 0 b (by simp))
    · refine ih (k + 1) (fun i bi hbi => ?_)
      have := h (i + 1) bi (by simpa using hbi)
      rwa [show k + (i + 1) = k + 1 + i by omega] at this

theorem migratePhase1_perm (prep : Row → Except String PreparedRow)
    (hprep : ∀ row pr, prep row = .ok pr → pr.sourceRowId = row.id) :
    ∀ rows : List Row,
      (rows.map (fun r => r.id)).Perm
        ((migratePhase1 prep rows).2.map (fun r => r.sourceRowId)
          ++ (migratePhase1 prep rows).1.map (fun r => r.sourceRowId)) := by
  intro rows
  induction rows with
  | nil => rfl
  | cons row rest ih =>
    show (row.id :: rest.map (fun r => r.id)).Perm _
    unfold migratePhase1
    match hp : prep row with
    | .ok pr =>
      simp only [List.map_cons]
      rw [hprep row pr hp]
      exact (ih.cons row.id).trans List.perm_middle.symm
    | .error e =>
      simp only [List.map_cons]
      exact ih.cons row.id

/-! ## Claim C4 — sanitization of structured values -/

/-- **C4** (counterexample): the claim's preference order "email, name, or
url" fails for person values: a `Person`-tagged value whose only populated
field is `url` sanitizes to its string form `"[object Object]"`, not to the
url. -/
theorem c4_person_url_counterexample :
    sanitizeValue (.vObj (some "Person") .vNull .vNull (.vStr "https://x") .vNull .vNull .vNull)
        = .vStr "[object Object]"
    ∧ sanitizeValue (.vObj (some "Person") .vNull .vNull (.vStr "https://x") .vNull .vNull .vNull)
        ≠ .vStr "https://x" := by
  constructor
  · rfl
  · intro h
    have h1 : sanitizeValue
        (.vObj (some "Person") .vNull .vNull (.vStr "https://x") .vNull .vNull .vNull)
        = Value.vStr "[object Object]" := rfl
    rw [h1] at h
    exact absurd (Value.vStr.inj h) (by decide)

/-- **C4** (amended): sanitization is total and returns the numeric amount
for a monetary value (`{amount: 42.5}` ↦ `42.5`); for a person value its
email then its name, falling back to the string form (url is not
consulted); for a structured-reference value its name, then url, then
display text, falling back to the string form; and the string form for an
object with an unrecognized tag and no truthy fallback fields
(`{name: "Jo", email: "jo@x.com"}` tagged `Person` ↦ `"jo@x.com"`). -/
theorem c4_sanitization_rules :
    (∀ (x : Rat) (n u d e t : Value),
        sanitizeValue (.vObj (some "MonetaryAmount") (.vNum x) n u d e t) = .vNum x)
    ∧ (∀ (a n u d e t : Value),
        sanitizeValue (.vObj (some "Person") a n u d e t)
          = jsOr e (jsOr n (.vStr "[object Object]")))
    ∧ (∀ (a n u d e t : Value),
        sanitizeValue (.vObj (some "StructuredValue") a n u d e t)
          = jsOr n (jsOr u (jsOr d (.vStr "[object Object]"))))
    ∧ (∀ (tag : String) (am : Value),
        tag ∉ ["MonetaryAmount", "StructuredValue", "Person", "ImageObject"] →
        sanitizeValue (.vObj (some tag) am .vNull .vNull .vNull .vNull .vNull)
          = .vStr "[object Object]")
    ∧ sanitizeValue
        (.vObj (some "MonetaryAmount") (.vNum 42.5) .vNull .vNull .vNull .vNull .vNull)
        = .vNum 42.5
    ∧ sanitizeValue
        (.vObj (some "Person") .vNull (.vStr "Jo") .vNull .vNull (.vStr "jo@x.com") .vNull)
        = .vStr "jo@x.com" := by
  refine ⟨?_, ?_, ?_, ?_, rfl, rfl⟩
  · intro x n u d e t
    simp [sanitizeValue, isNumberV]
  · intro a n u d e t
    simp [sanitizeValue]
  · intro a n u d e t
    simp [sanitizeValue]
  · intro tag am ht
    simp only [List.mem_cons, List.not_mem_nil, or_false, not_or] at ht
    obtain ⟨h1, h2, h3, h4⟩ := ht
    simp [sanitizeValue, Option.some.injEq, h1, h2, h3, h4, truthy]

/-- **C4** (witness): the unrecognized-tag rule applied at the concrete tag
`"Mystery"`. -/
theorem c4_sanitization_rules_witness :
    sanitizeValue (.vObj (some "Mystery") .vNull .vNull .vNull .vNull .vNull .vNull)
      = .vStr "[object Object]" :=
  c4_sanitization_rules.2.2.2.1 "Mystery" .vNull (by decide)

/-! ## Claim C10 — monetary value with a non-numeric amount -/

/-- **C10**: sanitizing a `MonetaryAmount`-tagged value whose `amount` field
is not a number returns exactly `0` — not an error and not the original
structure. -/
theorem c10_nonnumeric_amount_yields_zero (amount n u d e t : Value)
    (h : isNumberV amount = false) :
    sanitizeValue (.vObj (some "MonetaryAmount") amount n u d e t) = .vNum 0 := by
  simp [sanitizeValue, h]

/-- **C10** (witness): a monetary value whose amount is the string `"n/a"`
sanitizes to `0`. -/
theorem c10_witness :
    isNumberV (.vStr "n/a") = false
    ∧ sanitizeValue
        (.vObj (some "MonetaryAmount") (.vStr "n/a") .vNull .vNull .vNull .vNull .vNull)
        = .vNum 0 :=
  ⟨rfl, c10_nonnumeric_amount_yields_zero (.vStr "n/a") .vNull .vNull .vNull .vNull .vNull rfl⟩

/-! ## Claim C2 — batch insertion contract -/

/-- **C2** (counterexample): a batch of `K = 2` payloads answered with the
single-element identifier list `["row-1"]` yields one success entry — neither
`K` success entries nor `K` failure entries. -/
theorem c2_short_id_list_counterexample :
    insertRowsBatch [[("c", .vStr "v")], [("c", .vStr "w")]] (.ok (some ["row-1"]))
        = [⟨true, some "row-1", none⟩]
    ∧ (insertRowsBatch [[("c", .vStr "v")], [("c", .vStr "w")]]
        (.ok (some ["row-1"]))).length ≠ 2 :=
  ⟨rfl, by decide⟩

/-- The single error message `insertRowsBatch` stamps on every payload when
the call fails as a whole, or `none` when the response carries a non-empty
identifier list. -/
def batchFailureMessage (resp : InsertResponse) : Option String :=
  match resp with
  | .httpError msg => some ("Failed to insert batch: " ++ msg)
  | .netError msg => some msg
  | .ok none => some noIdsError
  | .ok (some ids) => if ids.isEmpty then some noIdsError else none

/-- **C2** (amended): for a non-empty batch of `K` payloads, a wire failure,
HTTP failure, or absent/empty identifier list marks all `K` payloads failed
with one shared error string; a response whose identifier list has exactly
`K` entries yields `K` success entries correlated positionally, with
distinct row identifiers whenever the response's identifiers are distinct.
(A non-empty identifier list of any other length yields one entry per
returned identifier instead — see the counterexample.) -/
theorem c2_batch_insert_contract (rowDataArray : List (List (String × Value)))
    (resp : InsertResponse) (hne : rowDataArray ≠ []) :
    (∀ e, batchFailureMessage resp = some e →
        insertRowsBatch rowDataArray resp
          = rowDataArray.map (fun _ => ⟨false, none, some e⟩))
    ∧ (∀ ids, resp = .ok (some ids) → ids.length = rowDataArray.length →
        insertRowsBatch rowDataArray resp
            = ids.map (fun rowId => ⟨true, some rowId, none⟩)
        ∧ (insertRowsBatch rowDataArray resp).length = rowDataArray.length
        ∧ (ids.Nodup →
            ((insertRowsBatch rowDataArray resp).filterMap
                (fun r => r.destinationRowId)).Nodup)) := by
  obtain ⟨a, l, rfl⟩ : ∃ a l, rowDataArray = a :: l := by
    cases rowDataArray with
    | nil => exact absurd rfl hne
    | cons a l => exact ⟨a, l, rfl⟩
  constructor
  · intro e he
    cases resp with
    | httpError msg => obtain rfl := Option.some.inj he; rfl
    | netError msg => obtain rfl := Option.some.inj he; rfl
    | ok ids =>
      cases ids with
      | none => obtain rfl := Option.some.inj he; rfl
      | some ids2 =>
        have he2 : (if ids2.isEmpty = true then some noIdsError else none) = some e := he
        by_cases hids : ids2.isEmpty = true
        · rw [if_pos hids] at he2
          obtain rfl := Option.some.inj he2
          simp [insertRowsBatch, hids]
        · rw [if_neg hids] at he2
          exact absurd he2 (by simp)
  · intro ids hresp hlen
    subst hresp
    have hids : ids.isEmpty = false := by
      cases ids with
      | nil => simp at hlen
      | cons b m => rfl
    have hbatch : insertRowsBatch (a :: l) (.ok (some ids))
        = ids.map (fun rowId => ⟨true, some rowId, none⟩) := by
      simp [insertRowsBatch, hids]
    refine ⟨hbatch, ?_, ?_⟩
    · rw [hbatch, List.length_map, hlen]
    · intro hnodup
      rw [hbatch, List.filterMap_map]
      have : ((fun r : InsertResult => r.destinationRowId)
          ∘ (fun rowId => (⟨true, some rowId, none⟩ : InsertResult))) = some := by
        funext rowId; rfl
      rw [this, List.filterMap_some]
      exact hnodup

/-- **C2** (witness): a wire failure marks both payloads failed with the one
error string; a two-identifier response yields two positional successes. -/
theorem c2_witness :
    insertRowsBatch [[("c", .vStr "v")]] (.netError "socket hang up")
        = [⟨false, none, some "socket hang up"⟩]
    ∧ insertRowsBatch [[("c", .vStr "v")], [("c", .vStr "w")]] (.ok (some ["a", "b"]))
        = [⟨true, some "a", none⟩, ⟨true, some "b", none⟩] :=
  ⟨(c2_batch_insert_contract [[("c", .vStr "v")]] (.netError "socket hang up")
      (by simp)).1 "socket hang up" rfl,
   ((c2_batch_insert_contract [[("c", .vStr "v")], [("c", .vStr "w")]]
      (.ok (some ["a", "b"])) (by simp)).2 ["a", "b"] rfl rfl).1⟩

/-! ## Claim C3 — cleanup on attachment-pipeline failure -/

/-- **C3** (code bug): with two attachments `"a b.png"` and `"b.png"` and a
failure at the copy into the staging area, the failure handler removes the
downloaded files and the per-file conversions but leaves the combined
scratch document `temp/a_b.pdf` on disk, contradicting the claim (and the
catch block's own "clean up any files created so far"). -/
theorem c3_staging_copy_leaves_scratch_file :
    processAttachmentsFS ⟨fun _ => true, fun _ => true, fun _ => true, true, false⟩ []
        [⟨"https://x/a", "a b.png"⟩, ⟨"https://x/b", "b.png"⟩] "a_b"
      = .error ("EACCES: staging copy failed", ["temp/a_b.pdf"]) := by
  rfl

/-! ## Claim C7 — recovery over an empty ledger -/

/-- **C7**: a recovery run against a ledger whose failed-row-id list is
empty (or absent, defaulted to empty) performs zero network calls and
returns an empty result list, for every configuration and every external
world. -/
theorem c7_empty_ledger_recovery (cfg : MigConfig) (w : RecoverWorld) :
    recoverRun cfg w (some ⟨some []⟩) = (.ok [], [])
    ∧ recoverRun cfg w (some ⟨none⟩) = (.ok [], []) :=
  ⟨rfl, rfl⟩

/-! ## Claim C5 — targeted retrieval -/

/-- **C5**: targeted retrieval partitions the requested ids into chunks of at
most 20 that together are exactly the request, filters every chunk response
down to the requested ids (so each returned row's id is in the requested
set), lets every chunk contribute regardless of other chunks' failures, and
can return a strict subset (a failing chunk contributes nothing). -/
theorem c5_targeted_retrieval :
    (∀ (rowIds : List String) (respond : List String → ChunkResponse) (r : Row),
        r ∈ getSpecificRows rowIds respond → r.id ∈ rowIds)
    ∧ (∀ rowIds : List String, (chunkList 20 rowIds).flatten = rowIds)
    ∧ (∀ (rowIds : List String) (b : List String),
        b ∈ chunkList 20 rowIds → b ≠ [] ∧ b.length ≤ 20)
    ∧ (∀ (rowIds : List String) (respond : List String → ChunkResponse)
        (b : List String) (r : Row),
        b ∈ chunkList 20 rowIds → r ∈ chunkFetch b (respond b) →
        r ∈ getSpecificRows rowIds respond)
    ∧ getSpecificRows ["A"] (fun _ => .httpError 500 "fail") = [] := by
  refine ⟨?_, ?_, ?_, ?_, rfl⟩
  · intro rowIds respond r hr
    rcases List.mem_flatMap.mp hr with ⟨b, hb, hrb⟩
    have hrid : r.id ∈ b := by
      unfold chunkFetch at hrb
      cases hresp : respond b with
      | httpError s m => rw [hresp] at hrb; simp at hrb
      | exn m => rw [hresp] at hrb; simp at hrb
      | ok items =>
        cases items with
        | none => rw [hresp] at hrb; simp at hrb
        | some items2 =>
          rw [hresp] at hrb
          have := (List.mem_filter.mp hrb).2
          simpa using this
    rw [← chunkList_flatten (show 0 < 20 by omega) rowIds]
    exact List.mem_flatten.mpr ⟨b, hb, hrid⟩
  · intro rowIds; exact chunkList_flatten (by omega) rowIds
  · intro rowIds b hb; exact chunkList_mem (by omega) hb
  · intro rowIds respond b r hb hr
    exact List.mem_flatMap.mpr ⟨b, hb, hr⟩

def c5RespW : List String → ChunkResponse :=
  fun _ => .ok (some [⟨"A", "", []⟩, ⟨"Z", "", []⟩])

/-- **C5** (witness): a chunk response containing an extra row `"Z"` is
filtered down, and the returned row's id lies in the requested set. -/
theorem c5_witness : (⟨"A", "", []⟩ : Row).id ∈ ["A", "B"] :=
  c5_targeted_retrieval.1 ["A", "B"] c5RespW ⟨"A", "", []⟩
    (show (⟨"A", "", []⟩ : Row) ∈ [(⟨"A", "", []⟩ : Row)] from List.mem_singleton.mpr rfl)

/-! ## Claim C6 — column-mapping invariants -/

/-- **C6**: every emitted `ColumnMapping` has a non-calculated source column
that is not in the skip-list, a non-calculated destination column, and a
destination column whose name is exactly the name configured for the source
column; a source column whose configured destination is missing or
calculated is dropped without affecting the other columns. -/
theorem c6_column_mapping_invariants :
    (∀ (sourceColumns destColumns : List CodaColumn) (cfg : MigConfig)
        (m : ColumnMapping), m ∈ createColumnMapping sourceColumns destColumns cfg →
        m.sourceColumn.calculated = false
        ∧ m.sourceColumn.name ∉ cfg.skipColumns
        ∧ m.destinationColumn.calculated = false
        ∧ cfg.columnMappings.lookup m.sourceColumn.name = some m.destinationColumn.name)
    ∧ (∀ (sourceCol : CodaColumn) (rest destColumns : List CodaColumn) (cfg : MigConfig),
        mapOneColumn destColumns cfg sourceCol = none →
        createColumnMapping (sourceCol :: rest) destColumns cfg
          = createColumnMapping rest destColumns cfg)
    ∧ (∀ (destColumns : List CodaColumn) (cfg : MigConfig) (sourceCol : CodaColumn)
        (destName : String),
        cfg.columnMappings.lookup sourceCol.name = some destName →
        destColumns.find? (fun dc => dc.name == destName && !dc.calculated) = none →
        mapOneColumn destColumns cfg sourceCol = none) := by
  refine ⟨?_, ?_, ?_⟩
  · intro sourceColumns destColumns cfg m hm
    rcases List.mem_filterMap.mp hm with ⟨c, hc, hone⟩
    unfold mapOneColumn at hone
    split at hone
    · exact absurd hone (by simp)
    · next h1 =>
      split at hone
      · exact absurd hone (by simp)
      · next h2 =>
        split at hone
        · exact absurd hone (by simp)
        · next destName hlk =>
          split at hone
          · exact absurd hone (by simp)
          · next h3 =>
            split at hone
            · exact absurd hone (by simp)
            · next destCol hfind =>
              obtain rfl := Option.some.inj hone
              have hpred := List.find?_some hfind
              rw [Bool.and_eq_true] at hpred
              refine ⟨by simpa using h1, by simpa using h2, by simpa using hpred.2, ?_⟩
              show cfg.columnMappings.lookup c.name = some destCol.name
              rw [hlk, eq_of_beq hpred.1]
  · intro sourceCol rest destColumns cfg h
    exact List.filterMap_cons_none h
  · intro destColumns cfg sourceCol destName hlk hfind
    unfold mapOneColumn
    split
    · rfl
    · split
      · rfl
      · rw [hlk]
        show (if destName = "" then none
          else match destColumns.find? (fun dc => dc.name == destName && !dc.calculated) with
            | none => none
            | some destCol =>
              some (ColumnMapping.mk sourceCol destCol (createTransform sourceCol destCol cfg)))
          = none
        rw [hfind]
        split <;> rfl

def srcColsW : List CodaColumn := [⟨"c1", "Amount", "number", false⟩]
def dstColsW : List CodaColumn := [⟨"d1", "Amount2", "text", false⟩]
def cfgW : MigConfig := ⟨"sd", "st", "dd", "dt", 2, [("Amount", "Amount2")], [], []⟩

/-- **C6** (witness): the one mapping emitted for the concrete schemas has a
non-calculated source column and a destination name matching the
configuration. -/
theorem c6_witness :
    (⟨⟨"c1", "Amount", "number", false⟩, ⟨"d1", "Amount2", "text", false⟩,
        createTransform ⟨"c1", "Amount", "number", false⟩
          ⟨"d1", "Amount2", "text", false⟩ cfgW⟩ : ColumnMapping).sourceColumn.calculated
        = false
    ∧ List.lookup "Amount" cfgW.columnMappings = some "Amount2" :=
  have hmem : (⟨⟨"c1", "Amount", "number", false⟩, ⟨"d1", "Amount2", "text", false⟩,
      createTransform ⟨"c1", "Amount", "number", false⟩
        ⟨"d1", "Amount2", "text", false⟩ cfgW⟩ : ColumnMapping)
      ∈ createColumnMapping srcColsW dstColsW cfgW := List.mem_singleton.mpr rfl
  ⟨(c6_column_mapping_invariants.1 srcColsW dstColsW cfgW _ hmem).1,
   (c6_column_mapping_invariants.1 srcColsW dstColsW cfgW _ hmem).2.2.2⟩

/-! ## Claim C9 — the destination payload never binds null -/

theorem mapRowDataAux_no_null (sourceRow : Row) (processedFiles : List ProcessedFile) :
    ∀ (ms : List ColumnMapping) (acc : List (String × Value)),
      (∀ q ∈ acc, q.2 ≠ Value.vNull) →
      ∀ p ∈ mapRowDataAux sourceRow processedFiles ms acc, p.2 ≠ Value.vNull := by
  intro ms
  induction ms with
  | nil => intro acc hacc p hp; exact hacc p hp
  | cons m rest ih =>
    intro acc hacc p hp
    unfold mapRowDataAux at hp
    by_cases hrec : isReceiptMapping m = true
    · rw [if_pos hrec] at hp
      cases processedFiles with
      | nil => exact ih acc hacc p hp
      | cons pf tl =>
        refine ih _ ?_ p hp
        intro q hq
        rcases mem_recordSet hq with rfl | hq2
        · simp
        · exact hacc q hq2
    · rw [if_neg hrec] at hp
      by_cases hnull : isNullV (sanitizeValue (applyTransform m
          (recordGet sourceRow.values m.sourceColumn.id))) = true
      · rw [if_pos hnull] at hp
        exact ih acc hacc p hp
      · rw [if_neg hnull] at hp
        refine ih _ ?_ p hp
        intro q hq
        rcases mem_recordSet hq with rfl | hq2
        · exact isNullV_false_ne (by simpa using hnull)
        · exact hacc q hq2

/-- **C9**: for every source row, mapping list, and processed-file list, the
destination payload never binds a key to `null`/`undefined`: such values are
omitted entirely. -/
theorem c9_payload_never_null (sourceRow : Row) (columnMappings : List ColumnMapping)
    (processedFiles : List ProcessedFile) (p : String × Value)
    (hp : p ∈ mapRowData sourceRow columnMappings processedFiles) :
    p.2 ≠ Value.vNull :=
  mapRowDataAux_no_null sourceRow processedFiles columnMappings [] (by simp) p hp

def rowW : Row := ⟨"r1", "", [("s1", .vStr "hello")]⟩
def mapW : ColumnMapping := ⟨⟨"s1", "Vendor", "text", false⟩, ⟨"d1", "Vendor", "text", false⟩, none⟩

/-- **C9** (witness): the one binding produced for a concrete row is not
null. -/
theorem c9_witness : (("d1", Value.vStr "hello") : String × Value).2 ≠ Value.vNull :=
  c9_payload_never_null rowW [mapW] [] ("d1", .vStr "hello")
    (show _ ∈ [(("d1", Value.vStr "hello") : String × Value)] from List.mem_singleton.mpr rfl)

/-! ## Claim C8 — the Receipt special case -/

theorem mapRowDataAux_origin (row : Row) (files : List ProcessedFile) :
    ∀ (ms : List ColumnMapping) (acc : List (String × Value)) (p : String × Value),
      p ∈ mapRowDataAux row files ms acc →
      p ∈ acc ∨ ∃ m ∈ ms, p.1 = m.destinationColumn.id ∧
        ((isReceiptMapping m = true
            ∧ ∃ pf rest, files = pf :: rest ∧ p.2 = .vStr pf.uploadedUrl)
         ∨ (isReceiptMapping m = false
            ∧ p.2 = sanitizeValue (applyTransform m
                (recordGet row.values m.sourceColumn.id)))) := by
  intro ms
  induction ms with
  | nil => intro acc p hp; exact Or.inl hp
  | cons m rest ih =>
    intro acc p hp
    unfold mapRowDataAux at hp
    by_cases hrec : isReceiptMapping m = true
    · rw [if_pos hrec] at hp
      match hfiles : files with
      | [] =>
        rcases ih acc p hp with h | ⟨m2, hm2, hrest⟩
        · exact Or.inl h
        · exact Or.inr ⟨m2, List.mem_cons_of_mem m hm2, hrest⟩
      | pf :: tl =>
        rcases ih _ p hp with h | ⟨m2, hm2, hrest⟩
        · rcases mem_recordSet h with rfl | h2
          · exact Or.inr ⟨m, List.mem_cons_self m rest,
              rfl, Or.inl ⟨hrec, pf, tl, rfl, rfl⟩⟩
          · exact Or.inl h2
        · exact Or.inr ⟨m2, List.mem_cons_of_mem m hm2, hrest⟩
    · rw [if_neg hrec] at hp
      have hrecF : isReceiptMapping m = false := by
        cases h : isReceiptMapping m
        · rfl
        · exact absurd h hrec
      by_cases hnull : isNullV (sanitizeValue (applyTransform m
          (recordGet row.values m.sourceColumn.id))) = true
      · rw [if_pos hnull] at hp
        rcases ih acc p hp with h | ⟨m2, hm2, hrest⟩
        · exact Or.inl h
        · exact Or.inr ⟨m2, List.mem_cons_of_mem m hm2, hrest⟩
      · rw [if_neg hnull] at hp
        rcases ih _ p hp with h | ⟨m2, hm2, hrest⟩
        · rcases mem_recordSet h with rfl | h2
          · exact Or.inr ⟨m, List.mem_cons_self m rest, rfl, Or.inr ⟨hrecF, rfl⟩⟩
          · exact Or.inl h2
        · exact Or.inr ⟨m2, List.mem_cons_of_mem m hm2, hrest⟩

/-- **C8**: attachment processing runs only when a mapping named exactly
`'Record file'` → `'Receipt'` exists (without one, `prepareRow` ignores the
file pipeline and storage oracles entirely and yields no processed files);
every binding of the payload either comes from that special mapping (bound
to the first processed file's uploaded url) or went through the ordinary
transform-and-sanitize path; and when the special mapping exists but the row
yields no processed file, the Receipt column id is absent from the payload
(provided no ordinary mapping also targets that id). -/
theorem c8_receipt_special_case :
    (∀ (pa : List Value → String → Except String (Option ProcessedFile))
        (up : String → String → Except String String)
        (columnMappings : List ColumnMapping) (row : Row),
        columnMappings.find? isReceiptMapping = none →
        prepareRow pa up columnMappings row
          = .ok ⟨row.id, mapRowData row columnMappings [], []⟩)
    ∧ (∀ (row : Row) (ms : List ColumnMapping) (files : List ProcessedFile)
        (p : String × Value), p ∈ mapRowData row ms files →
        ∃ m ∈ ms, p.1 = m.destinationColumn.id ∧
          ((isReceiptMapping m = true
              ∧ ∃ pf rest, files = pf :: rest ∧ p.2 = .vStr pf.uploadedUrl)
           ∨ (isReceiptMapping m = false
              ∧ p.2 = sanitizeValue (applyTransform m
                  (recordGet row.values m.sourceColumn.id)))))
    ∧ (∀ (row : Row) (ms : List ColumnMapping) (cid : String),
        (∀ m ∈ ms, m.destinationColumn.id = cid → isReceiptMapping m = true) →
        cid ∉ (mapRowData row ms []).map Prod.fst) := by
  refine ⟨?_, ?_, ?_⟩
  · intro pa up columnMappings row h
    unfold prepareRow
    rw [h]
  · intro row ms files p hp
    rcases mapRowDataAux_origin row files ms [] p hp with h | h
    · exact absurd h (List.not_mem_nil p)
    · exact h
  · intro row ms cid hall hmem
    rcases List.mem_map.mp hmem with ⟨p, hp, hfst⟩
    rcases mapRowDataAux_origin row [] ms [] p hp with h | ⟨m, hm, hid, hcase⟩
    · exact List.not_mem_nil p h
    · rcases hcase with ⟨_, pf, rest, hf, _⟩ | ⟨hrecF, _⟩
      · exact List.noConfusion hf
      · have : isReceiptMapping m = true := hall m hm (by rw [← hid, hfst])
        rw [hrecF] at this
        exact Bool.noConfusion this

def paW : List Value → String → Except String (Option ProcessedFile) :=
  fun _ _ => .error "no pipeline"
def upW : String → String → Except String String := fun _ _ => .error "no storage"

/-- **C8** (witness): without a `'Record file'` → `'Receipt'` mapping, a row
is prepared purely from its mapped columns, ignoring the attachment
oracles. -/
theorem c8_witness :
    prepareRow paW upW [mapW] rowW = .ok ⟨"r1", [("d1", .vStr "hello")], []⟩ :=
  c8_receipt_special_case.1 paW upW [mapW] rowW rfl

/-! ## Claim C1 — one result per source row -/

def demoRows : List Row := [⟨"r1", "", []⟩, ⟨"r2", "", []⟩]
def demoShortRespond : Nat → InsertResponse := fun _ => .ok (some ["d1"])
def demoGoodRespond : Nat → InsertResponse := fun _ => .ok (some ["d1", "d2"])

/-- **C1** (counterexample): a run over the two rows `r1, r2` whose single
batch insert answers with the short identifier list `["d1"]` produces three
results (`r1` success, then — after the correlation loop throws — `r1` and
`r2` failures), so `count(success) + count(failure) ≠ N`. -/
theorem c1_counterexample :
    ¬ ((migrateResults (prepareRow paW upW []) demoShortRespond 2 demoRows).countP
          (fun r => r.success)
        + (migrateResults (prepareRow paW upW []) demoShortRespond 2 demoRows).countP
          (fun r => !r.success)
      = demoRows.length) := by decide

/-- **C1** (amended): one `MigrationResult` per source row — the result
list's source-row ids are a permutation of the input rows' ids and
`count(success) + count(failure) = N` — holds in every outcome of the batch
inserts (success with at least as many ids as payloads, absent or empty id
list, HTTP failure, or wire exception) *except* a response whose non-empty
identifier list is shorter than its batch, which instead yields an extra
result for every covered position (see the counterexample). -/
theorem c1_one_result_per_row (prep : Row → Except String PreparedRow)
    (respond : Nat → InsertResponse) (insertBatchSize : Nat) (sourceRows : List Row)
    (hn : 0 < insertBatchSize)
    (hprep : ∀ row pr, prep row = .ok pr → pr.sourceRowId = row.id)
    (hshort : ∀ (i : Nat) (b : List PreparedRow),
        (migrateBatches prep insertBatchSize sourceRows)[i]? = some b →
        responseShort (respond i) b.length = false) :
    ((migrateResults prep respond insertBatchSize sourceRows).map
        (fun r => r.sourceRowId)).Perm (sourceRows.map (fun r => r.id))
    ∧ (migrateResults prep respond insertBatchSize sourceRows).countP (fun r => r.success)
        + (migrateResults prep respond insertBatchSize sourceRows).countP
          (fun r => !r.success)
      = sourceRows.length := by
  have hmain : ((migrateResults prep respond insertBatchSize sourceRows).map
      (fun r => r.sourceRowId)).Perm (sourceRows.map (fun r => r.id)) := by
    unfold migrateResults
    cases sourceRows with
    | nil => simp
    | cons r rs =>
      simp only [List.isEmpty_cons, Bool.false_eq_true, if_false]
      rw [List.map_append]
      rw [runBatches_srcIds respond _ 0 ?hresp]
      case hresp =>
        intro i b hb
        rw [Nat.zero_add]
        exact hshort i b hb
      rw [chunkList_flatten hn]
      exact (migratePhase1_perm prep hprep (r :: rs)).symm
  refine ⟨hmain, ?_⟩
  have hlen : (migrateResults prep respond insertBatchSize sourceRows).length
      = sourceRows.length := by
    have h2 := hmain.length_eq
    rwa [List.length_map, List.length_map] at h2
  rw [countP_add_countP_not]
  exact hlen

/-- **C1** (witness): two rows inserted as one batch answered with two ids
yield exactly one result per row. -/
theorem c1_witness :
    ((migrateResults (prepareRow paW upW []) demoGoodRespond 2 demoRows).map
        (fun r => r.sourceRowId)).Perm (demoRows.map (fun r => r.id))
    ∧ (migrateResults (prepareRow paW upW []) demoGoodRespond 2 demoRows).countP
          (fun r => r.success)
        + (migrateResults (prepareRow paW upW []) demoGoodRespond 2 demoRows).countP
          (fun r => !r.success)
      = demoRows.length :=
  c1_one_result_per_row (prepareRow paW upW []) demoGoodRespond 2 demoRows
    (by omega)
    (fun row pr h => by injection h with h2; rw [← h2])
    (by
      intro i b hb
      match i with
      | 0 =>
        rw [show (migrateBatches (prepareRow paW upW []) 2 demoRows)[0]?
            = some [⟨"r1", [], []⟩, ⟨"r2", [], []⟩] from rfl] at hb
        obtain rfl := Option.some.inj hb
        rfl
      | Nat.succ n =>
        rw [show (migrateBatches (prepareRow paW upW []) 2 demoRows)[n + 1]?
            = none from rfl] at hb
        exact Option.noConfusion hb)

end ExpenseMigration
